import Mathlib

/-!
Verification of the uplink-scheduling and wake-cycle logic of the
growatt2lorawan-v2 firmware.

The definitions below are a shallow embedding of the C++ sources:

* `UplinkScheduler` with `begin`, `hasUplinks`, `getNextPort`
  (UplinkScheduler.h).  The C++ fields `uplinks`, `index`, `cycle` are
  `uint8_t`; arithmetic on them is modelled as `Nat` with explicit `% 256`
  at each increment/decrement, and the implicit `uint16_t → uint8_t`
  argument conversion at the call site of `begin` is the `% 256` applied
  to `current_cycle`.
* The schedule table (growatt2lorawan_cfg.h): `UplinkSchedule`, two rows
  `{1,1}` and `{2,3}`; `NUM_PORTS` is the length of the table list.
* `sleepDuration` (growatt2lorawan-v2.ino): `uint32_t` arithmetic is `Nat`
  with an explicit `% 2^32` on the one subtraction that can wrap.
* The wake-cycle do/while loop of `setup()` (growatt2lorawan-v2.ino):
  one `wakeStep` models one loop iteration, i.e. exactly one
  `sendReceive` radio exchange; the data the external transport produces
  during that exchange (frame counter, decoded downlink command id) is an
  environment record `WakeEnv`.
* The session persistence of one wake episode (`lwActivate` plus the
  `memcpy` to `LWsession` after the loop).
-/

/-- One row of the static uplink schedule table (`Schedule` in
growatt2lorawan_cfg.h): a port and a repeat multiplier. -/
structure Schedule where
  port : Nat
  mult : Nat
deriving DecidableEq

/-- The compiled-in schedule table `UplinkSchedule` of
growatt2lorawan_cfg.h: `{{1, 1}, {2, 3}}`.  `NUM_PORTS` (= 2) is the
length of this list. -/
def UplinkSchedule : List Schedule := [⟨1, 1⟩, ⟨2, 3⟩]

/-- The due-check of UplinkScheduler.h, lines 72 and 100:
`UplinkSchedule[i].mult && (cycle % UplinkSchedule[i].mult == 0)`.
The `&&` short-circuits, so `mult = 0` never reaches the modulo. -/
def dueB (e : Schedule) (cycle : Nat) : Bool :=
  e.mult != 0 && cycle % e.mult == 0

/-- Number of table entries due in a cycle (the quantity the `begin` loop
counts, ignoring the `uint8_t` wrap of the counter). -/
def countDue (cycle : Nat) (table : List Schedule) : Nat :=
  (table.filter (fun e => dueB e cycle)).length

/-- The due ports of a cycle in table order (the sequence the spec says a
`begin .. exhaustion` run dispenses). -/
def duePorts (cycle : Nat) (table : List Schedule) : List Nat :=
  (table.filter (fun e => dueB e cycle)).map (fun e => e.port)

/-- State of the `UplinkScheduler` class: `uint8_t uplinks, index, cycle`. -/
structure UplinkScheduler where
  uplinks : Nat
  index : Nat
  cycle : Nat
deriving DecidableEq

/-- A freshly constructed `UplinkScheduler` (in-class initializers
`uplinks = 0`, `index = 0`, `cycle = 0`). -/
def UplinkScheduler.mk0 : UplinkScheduler := ⟨0, 0, 0⟩

/-- The counting loop of `UplinkScheduler::begin`: for each table row that
is due, `uplinks++` on the `uint8_t` member. -/
def beginCount (cycle : Nat) (uplinks : Nat) : List Schedule → Nat
  | [] => uplinks
  | e :: rest =>
      beginCount cycle (if dueB e cycle then (uplinks + 1) % 256 else uplinks) rest

/-- `UplinkScheduler::begin(uint8_t current_cycle)`: resets `index`,
stores the cycle, and increments `uplinks` once per due row.  The `% 256`
on `current_cycle` models the implicit conversion of the caller's
argument (a `uint16_t` boot counter) to the `uint8_t` parameter.
Note the source does NOT reset `uplinks` before counting. -/
def UplinkScheduler.begin (s : UplinkScheduler) (table : List Schedule)
    (current_cycle : Nat) : UplinkScheduler :=
  { index := 0
    cycle := current_cycle % 256
    uplinks := beginCount (current_cycle % 256) s.uplinks table }

/-- `UplinkScheduler::hasUplinks`: `return uplinks > 0;`. -/
def UplinkScheduler.hasUplinks (s : UplinkScheduler) : Bool :=
  decide (0 < s.uplinks)

/-- Scan of the loop in `UplinkScheduler::getNextPort`, expressed on the
table suffix starting at the cursor: the offset of the first due row and
the row itself, or `none`. -/
def findDue (cycle : Nat) : List Schedule → Option (Nat × Schedule)
  | [] => none
  | e :: rest =>
      if dueB e cycle then some (0, e)
      else
        match findDue cycle rest with
        | some (k, f) => some (k + 1, f)
        | none => none

/-- `UplinkScheduler::getNextPort`: scans `UplinkSchedule` from `index` for
the first due row; on a hit it sets `index` past it, decrements the
`uint8_t` `uplinks` (wrapping), and returns the row's port truncated to
`uint8_t`; otherwise it returns 0 and leaves the state unchanged. -/
def UplinkScheduler.getNextPort (s : UplinkScheduler) (table : List Schedule) :
    Nat × UplinkScheduler :=
  match findDue s.cycle (table.drop s.index) with
  | some (k, e) =>
      (e.port % 256,
        { s with index := s.index + (k + 1), uplinks := (s.uplinks + 255) % 256 })
  | none => (0, s)

/-- `n` successive calls of `getNextPort`, collecting the returned ports. -/
def dispense (table : List Schedule) : UplinkScheduler → Nat → List Nat
  | _, 0 => []
  | s, n + 1 =>
      let pr := s.getNextPort table
      pr.1 :: dispense table pr.2 n

/-- The ports (as `uint8_t` values) of the due rows of a list, in order:
the reference sequence a scan of that list dispenses. -/
def emit (cycle : Nat) : List Schedule → List Nat
  | [] => []
  | e :: rest =>
      if dueB e cycle then (e.port % 256) :: emit cycle rest else emit cycle rest

theorem emit_length (cycle : Nat) (l : List Schedule) :
    (emit cycle l).length = countDue cycle l := by
  induction l with
  | nil => rfl
  | cons e rest ih =>
      by_cases h : dueB e cycle
      · simp [emit, countDue, List.filter, h] at ih ⊢
        simpa [countDue] using ih
      · simp [emit, countDue, List.filter, h] at ih ⊢
        simpa [countDue] using ih

theorem findDue_none_iff (cycle : Nat) (l : List Schedule) :
    findDue cycle l = none ↔ emit cycle l = [] := by
  induction l with
  | nil => simp [findDue, emit]
  | cons e rest ih =>
      by_cases h : dueB e cycle
      · simp [findDue, emit, h]
      · simp [findDue, emit, h]
        cases hr : findDue cycle rest with
        | some p => simp [hr] at ih; simp [ih]
        | none => simp [hr] at ih; simp [ih]

theorem findDue_some_spec (cycle : Nat) (l : List Schedule) (k : Nat)
    (e : Schedule) (h : findDue cycle l = some (k, e)) :
    dueB e cycle = true ∧
      emit cycle l = (e.port % 256) :: emit cycle (l.drop (k + 1)) := by
  induction l generalizing k with
  | nil => simp [findDue] at h
  | cons e0 rest ih =>
      by_cases h0 : dueB e0 cycle
      · simp [findDue, h0] at h
        obtain ⟨hk, he⟩ := h
        subst hk; subst he
        simp [emit, h0]
      · simp [findDue, h0] at h
        cases hr : findDue cycle rest with
        | none => simp [hr] at h
        | some p =>
            obtain ⟨k', f⟩ := p
            simp [hr] at h
            obtain ⟨hk, he⟩ := h
            subst he
            obtain ⟨hd, hrec⟩ := ih k' hr
            refine ⟨hd, ?_⟩
            have hdrop : (e0 :: rest).drop (k + 1) = rest.drop (k' + 1) := by
              subst hk; simp
            rw [hdrop]
            simpa [emit, h0] using hrec

theorem dispense_no_due (table : List Schedule) (s : UplinkScheduler)
    (h : findDue s.cycle (table.drop s.index) = none) :
    ∀ n, dispense table s n = List.replicate n 0 := by
  intro n
  induction n with
  | zero => rfl
  | succ n ih =>
      simp only [dispense, UplinkScheduler.getNextPort, h]
      simpa [List.replicate] using ih

theorem dispense_eq_emit (table : List Schedule) :
    ∀ (n : Nat) (s : UplinkScheduler) (l : List Schedule),
      table.drop s.index = l → (emit s.cycle l).length ≤ n →
      dispense table s n =
        emit s.cycle l ++ List.replicate (n - (emit s.cycle l).length) 0 := by
  intro n
  induction n with
  | zero =>
      intro s l hl hlen
      have : emit s.cycle l = [] := List.length_eq_zero.mp (Nat.le_zero.mp hlen)
      simp [dispense, this]
  | succ n ih =>
      intro s l hl hlen
      cases hf : findDue s.cycle (table.drop s.index) with
      | none =>
          have hemit : emit s.cycle l = [] := by
            rw [← hl]; exact (findDue_none_iff _ _).mp hf
          rw [hemit]
          simpa using dispense_no_due table s hf (n + 1)
      | some p =>
          obtain ⟨k, e⟩ := p
          obtain ⟨hdue, hrec⟩ := findDue_some_spec s.cycle (table.drop s.index) k e hf
          rw [hl] at hrec
          simp only [dispense, UplinkScheduler.getNextPort, hf]
          have hdrop :
              table.drop (s.index + (k + 1)) = l.drop (k + 1) := by
            rw [← hl, List.drop_drop]
          have hlen' : (emit s.cycle (l.drop (k + 1))).length ≤ n := by
            rw [hrec] at hlen
            simp only [List.length_cons] at hlen
            omega
          have := ih { s with index := s.index + (k + 1),
                              uplinks := (s.uplinks + 255) % 256 }
            (l.drop (k + 1)) hdrop hlen'
          rw [hrec]
          simp only [this]
          simp [List.length_cons, Nat.succ_sub_succ]

theorem emit_eq_duePorts (cycle : Nat) (table : List Schedule)
    (hport : ∀ e ∈ table, e.port < 256) :
    emit cycle table = duePorts cycle table := by
  induction table with
  | nil => rfl
  | cons e rest ih =>
      have he : e.port < 256 := hport e (by simp)
      have ih' := ih (fun f hf => hport f (by simp [hf]))
      by_cases h : dueB e cycle
      · simp [emit, duePorts, List.filter, h, Nat.mod_eq_of_lt he] at ih' ⊢
        simpa [duePorts] using ih'
      · simp [emit, duePorts, List.filter, h] at ih' ⊢
        simpa [duePorts] using ih'

/-- Claim C1: on a freshly constructed scheduler, `begin(cycle)` followed by
repeated `getNextPort()` dispenses exactly the ports of the table rows due
in that cycle (multiplier nonzero and `cycle % multiplier == 0`), in table
order, each exactly once, followed by the sentinel 0.  The sequence is a
pure function of the table and the cycle, so it is identical on every run.
`cycle < 256` are the values of the `uint8_t` parameter; ports are
positive `uint8_t` values as in the data model. -/
theorem c1_dispense_due_ports (table : List Schedule) (c : Nat)
    (hc : c < 256) (hport : ∀ e ∈ table, 0 < e.port ∧ e.port < 256) :
    dispense table (UplinkScheduler.mk0.begin table c) (countDue c table + 1) =
      duePorts c table ++ [0] := by
  have hcyc : c % 256 = c := Nat.mod_eq_of_lt hc
  have hidx : table.drop (UplinkScheduler.mk0.begin table c).index = table := by
    simp [UplinkScheduler.begin]
  have hcy : (UplinkScheduler.mk0.begin table c).cycle = c := by
    simp [UplinkScheduler.begin, hcyc]
  have hlen : (emit c table).length = countDue c table := emit_length c table
  have hle : (emit c table).length ≤ countDue c table + 1 := by omega
  have := dispense_eq_emit table (countDue c table + 1)
    (UplinkScheduler.mk0.begin table c) table hidx (by rw [hcy]; exact hle)
  rw [hcy] at this
  rw [this, emit_eq_duePorts c table (fun e he => (hport e he).2)]
  rw [← emit_eq_duePorts c table (fun e he => (hport e he).2), hlen]
  simp [emit_eq_duePorts c table (fun e he => (hport e he).2)]

theorem c1_witness :
    dispense UplinkSchedule (UplinkScheduler.mk0.begin UplinkSchedule 3)
        (countDue 3 UplinkSchedule + 1) =
      duePorts 3 UplinkSchedule ++ [0] :=
  c1_dispense_due_ports UplinkSchedule 3 (by decide) (by decide)

theorem beginCount_no_wrap (table : List Schedule) :
    ∀ (c u : Nat), u + countDue c table ≤ 255 →
      beginCount c u table = u + countDue c table := by
  induction table with
  | nil => intro c u _; simp [beginCount, countDue]
  | cons e rest ih =>
      intro c u hle
      by_cases h : dueB e c
      · have hcnt : countDue c (e :: rest) = countDue c rest + 1 := by
          simp [countDue, List.filter, h]
        rw [hcnt] at hle
        have hmod : (u + 1) % 256 = u + 1 := Nat.mod_eq_of_lt (by omega)
        simp only [beginCount, h, if_pos, hmod]
        rw [ih c (u + 1) (by omega), hcnt]
        omega
      · have hcnt : countDue c (e :: rest) = countDue c rest := by
          simp [countDue, List.filter, h]
        rw [hcnt] at hle
        simp only [beginCount, h, if_neg, Bool.false_eq_true, not_false_iff,
          ite_false]
        rw [ih c u hle, hcnt]

/-- Claim C6 counterexample: `begin` does not reset the `uplinks` counter,
so after a second `begin(3)` on the repository's table the remaining-due
count is 4, not the number (2) of entries due in cycle 3.  This refutes
the claim for priors states with a nonzero counter. -/
theorem c6_counterexample :
    ((UplinkScheduler.mk0.begin UplinkSchedule 3).begin UplinkSchedule 3).uplinks ≠
      countDue 3 UplinkSchedule := by
  decide

/-- Claim C6 as amended: `begin(cycle)` resets the cursor to the start of
the table and ADDS the number of due entries to the remaining-due counter
(mod 256); when the prior counter is zero — in particular on a freshly
constructed scheduler — the counter afterwards equals exactly the number
of due entries, and `hasUplinks()` is true iff at least one entry is due. -/
theorem c6_amended_begin (table : List Schedule) (s : UplinkScheduler)
    (c : Nat) (hlen : table.length ≤ 255) (h0 : s.uplinks = 0) :
    (s.begin table c).index = 0 ∧
      (s.begin table c).uplinks = countDue (c % 256) table ∧
      ((s.begin table c).hasUplinks = true ↔ 0 < countDue (c % 256) table) := by
  have hcnt : countDue (c % 256) table ≤ 255 :=
    le_trans (List.length_filter_le _ _) hlen
  have hu : (s.begin table c).uplinks = countDue (c % 256) table := by
    simp only [UplinkScheduler.begin, h0]
    rw [beginCount_no_wrap table (c % 256) 0 (by omega)]
    omega
  refine ⟨rfl, hu, ?_⟩
  simp [UplinkScheduler.hasUplinks, hu]

theorem c6_amended_begin_witness :
    (UplinkScheduler.mk0.begin UplinkSchedule 3).index = 0 ∧
      (UplinkScheduler.mk0.begin UplinkSchedule 3).uplinks =
        countDue (3 % 256) UplinkSchedule ∧
      ((UplinkScheduler.mk0.begin UplinkSchedule 3).hasUplinks = true ↔
        0 < countDue (3 % 256) UplinkSchedule) :=
  c6_amended_begin UplinkSchedule UplinkScheduler.mk0 3 (by decide) rfl

theorem findDue_eq_none_of_not_due (cycle : Nat) (l : List Schedule)
    (h : ∀ e ∈ l, dueB e cycle = false) : findDue cycle l = none := by
  induction l with
  | nil => rfl
  | cons e rest ih =>
      have he : dueB e cycle = false := h e (by simp)
      have ihr := ih (fun f hf => h f (by simp [hf]))
      simp [findDue, he, ihr]

/-- Claim C7: an entry with multiplier 0 is never due for any cycle (the
short-circuited check never reaches the modulo), and calling
`getNextPort()` when no due entry remains past the cursor — in particular
after all due ports of the cycle have been dispensed — is a no-op that
returns the sentinel 0 and leaves the cursor and the remaining count
unchanged. -/
theorem c7_mult_zero_and_exhaustion :
    (∀ (e : Schedule) (c : Nat), e.mult = 0 → dueB e c = false) ∧
      (∀ (table : List Schedule) (s : UplinkScheduler),
        (∀ e ∈ table.drop s.index, dueB e s.cycle = false) →
        s.getNextPort table = (0, s)) := by
  constructor
  · intro e c h
    simp [dueB, h]
  · intro table s h
    simp [UplinkScheduler.getNextPort,
      findDue_eq_none_of_not_due s.cycle (table.drop s.index) h]

theorem c7_witness :
    dueB ⟨5, 0⟩ 7 = false ∧
      UplinkScheduler.getNextPort ⟨0, 2, 3⟩ UplinkSchedule = (0, ⟨0, 2, 3⟩) :=
  ⟨c7_mult_zero_and_exhaustion.1 ⟨5, 0⟩ 7 rfl,
    c7_mult_zero_and_exhaustion.2 UplinkSchedule ⟨0, 2, 3⟩ (by decide)⟩

/-- Claim C10: `begin` receives its cycle through a `uint8_t` parameter
while the boot counter is `uint16_t`, so the scheduler state after
`begin`, and hence every dispensed port sequence, depends only on the
boot count modulo 256; a boot count of 256 is treated as cycle 0, on
which every entry with a nonzero multiplier is due. -/
theorem c10_cycle_mod_256 :
    (∀ (table : List Schedule) (s : UplinkScheduler) (b1 b2 : Nat),
        b1 % 256 = b2 % 256 → s.begin table b1 = s.begin table b2) ∧
      (∀ (table : List Schedule) (s : UplinkScheduler) (b1 b2 n : Nat),
        b1 % 256 = b2 % 256 →
        dispense table (s.begin table b1) n =
          dispense table (s.begin table b2) n) ∧
      (∀ (table : List Schedule) (s : UplinkScheduler),
        s.begin table 256 = s.begin table 0) ∧
      (∀ e : Schedule, e.mult ≠ 0 → dueB e (256 % 256) = true) := by
  have hbegin : ∀ (table : List Schedule) (s : UplinkScheduler) (b1 b2 : Nat),
      b1 % 256 = b2 % 256 → s.begin table b1 = s.begin table b2 := by
    intro table s b1 b2 h
    simp [UplinkScheduler.begin, h]
  refine ⟨hbegin, ?_, ?_, ?_⟩
  · intro table s b1 b2 n h
    rw [hbegin table s b1 b2 h]
  · intro table s
    exact hbegin table s 256 0 rfl
  · intro e h
    simp [dueB, h]

theorem c10_witness :
    UplinkScheduler.mk0.begin UplinkSchedule 257 =
        UplinkScheduler.mk0.begin UplinkSchedule 1 ∧
      dueB ⟨2, 3⟩ (256 % 256) = true :=
  ⟨c10_cycle_mod_256.1 UplinkSchedule UplinkScheduler.mk0 257 1 rfl,
    c10_cycle_mod_256.2.2.2 ⟨2, 3⟩ (by decide)⟩


/-- `SLEEP_INTERVAL_MIN` of growatt2lorawan_cfg.h (seconds). -/
def SLEEP_INTERVAL_MIN : Nat := 60

/-- The inputs `sleepDuration` reads besides its `battery_weak` parameter:
the two configured intervals (`uint16_t` preferences), the measured
battery voltage (`uint16_t`, 0 = unmeasured), the last clock-sync epoch
(0 = never synchronized) and the current local wall-clock minute and
second from `localtime_r`. -/
structure SleepInputs where
  sleep_interval : Nat
  sleep_interval_long : Nat
  voltage : Nat
  rtcLastClockSync : Nat
  minute : Nat
  second : Nat
deriving DecidableEq

/-- The base interval `sleepDuration` chooses before alignment: the long
interval when the battery is measured and weak
(`voltage && voltage <= battery_weak`), the normal one otherwise. -/
def chosenInterval (battery_weak : Nat) (inp : SleepInputs) : Nat :=
  if inp.voltage ≠ 0 ∧ inp.voltage ≤ battery_weak then inp.sleep_interval_long
  else inp.sleep_interval

/-- The clock-alignment block of `sleepDuration`:
`diff = (tm_min * 60) % sleep_interval + tm_sec`, one conditional
`diff -= sleep_interval` when `diff > sleep_interval`, then
`sleep_interval - diff` in `uint32_t` arithmetic (modelled as `Nat` with
an explicit wrap modulo `2^32`). -/
def alignedInterval (si minute second : Nat) : Nat :=
  (si + 4294967296 -
      (if (minute * 60) % si + second > si
        then (minute * 60) % si + second - si
        else (minute * 60) % si + second)) %
    4294967296

/-- `sleepDuration(uint16_t battery_weak)` of growatt2lorawan-v2.ino:
choose the base interval (long when the battery is weak, which is also
the `longSleep` flag the function sets), when the clock has been
synchronized shrink it to align the next wake to the hour, and finally
clamp with `max(sleep_interval, SLEEP_INTERVAL_MIN)`.  Returns the
duration and the `longSleep` flag. -/
def sleepDuration (battery_weak : Nat) (inp : SleepInputs) : Nat × Bool :=
  (max
      (if inp.rtcLastClockSync ≠ 0 then
        alignedInterval (chosenInterval battery_weak inp) inp.minute inp.second
      else chosenInterval battery_weak inp)
      SLEEP_INTERVAL_MIN,
    decide (inp.voltage ≠ 0 ∧ inp.voltage ≤ battery_weak))

/-- Claim C4: for all inputs (with nonzero configured intervals, so the
modulo in the alignment step is defined in the C source), `sleepDuration`
returns at least `SLEEP_INTERVAL_MIN`: the final clamp
`max(sleep_interval, SLEEP_INTERVAL_MIN)` enforces the floor on every
path. -/
theorem c4_sleep_floor (battery_weak : Nat) (inp : SleepInputs)
    (_hdef : 0 < inp.sleep_interval ∧ 0 < inp.sleep_interval_long) :
    SLEEP_INTERVAL_MIN ≤ (sleepDuration battery_weak inp).1 :=
  Nat.le_max_right _ _

theorem c4_witness :
    (0 < (360 : Nat) ∧ 0 < (900 : Nat)) ∧
      SLEEP_INTERVAL_MIN ≤ (sleepDuration 3500 ⟨360, 900, 0, 0, 12, 34⟩).1 :=
  ⟨by decide, c4_sleep_floor 3500 ⟨360, 900, 0, 0, 12, 34⟩ (by decide)⟩

/-- Claim C5 counterexample: with a configured interval of 10 s, an
unmeasured battery, a synchronized clock, and local time 0 min 25 s, the
alignment step computes `diff = 25`, subtracts the interval once leaving
`diff = 15`, still greater than 10, and the `uint32_t` subtraction
`10 - 15` wraps to 4294967291, which the final clamp keeps: the returned
value exceeds the chosen base interval of 10. -/
theorem c5_counterexample :
    chosenInterval 3500 ⟨10, 900, 0, 1, 0, 25⟩ = 10 ∧
      (sleepDuration 3500 ⟨10, 900, 0, 1, 0, 25⟩).1 = 4294967291 := by
  exact ⟨by decide, by decide⟩

theorem alignedInterval_le (si minute second : Nat) (hsec : second ≤ 60)
    (hsi : 60 ≤ si) (hlt : si < 4294967296) :
    alignedInterval si minute second ≤ si := by
  unfold alignedInterval
  have hpos : 0 < si := by omega
  have hmod : (minute * 60) % si < si := Nat.mod_lt _ hpos
  set diff1 := if (minute * 60) % si + second > si
      then (minute * 60) % si + second - si
      else (minute * 60) % si + second with hdiff1
  have hd1 : diff1 ≤ si := by
    by_cases h : (minute * 60) % si + second > si
    · simp only [hdiff1, if_pos h]; omega
    · simp only [hdiff1, if_neg h]; omega
  have heq : si + 4294967296 - diff1 = (si - diff1) + 4294967296 := by omega
  rw [heq, Nat.add_mod_right, Nat.mod_eq_of_lt (by omega)]
  omega

/-- Claim C5 as amended: whenever the chosen base interval is at least
the floor `SLEEP_INTERVAL_MIN` (60 s) and the wall-clock second is in its
calendar range (at most 60), the alignment offset after the single
conditional subtraction never exceeds the interval, the `uint32_t`
subtraction cannot wrap, and the returned value is at most the chosen
base interval.  (The counterexample shows this fails for intervals below
the floor.)  The bounds on the two configured intervals are their
`uint16_t` ranges. -/
theorem c5_amended_le_chosen (battery_weak : Nat) (inp : SleepInputs)
    (hsec : inp.second ≤ 60)
    (h16 : inp.sleep_interval < 65536 ∧ inp.sleep_interval_long < 65536)
    (hmin : SLEEP_INTERVAL_MIN ≤ chosenInterval battery_weak inp) :
    (sleepDuration battery_weak inp).1 ≤ chosenInterval battery_weak inp := by
  have h60 : (60 : Nat) ≤ chosenInterval battery_weak inp := hmin
  have hlt : chosenInterval battery_weak inp < 4294967296 := by
    unfold chosenInterval
    by_cases h : inp.voltage ≠ 0 ∧ inp.voltage ≤ battery_weak
    · rw [if_pos h]; omega
    · rw [if_neg h]; omega
  simp only [sleepDuration]
  by_cases hrtc : inp.rtcLastClockSync ≠ 0
  · rw [if_pos hrtc]
    exact Nat.max_le.mpr
      ⟨alignedInterval_le _ inp.minute inp.second hsec h60 hlt, hmin⟩
  · rw [if_neg hrtc]
    exact Nat.max_le.mpr ⟨le_refl _, hmin⟩

theorem c5_amended_witness :
    (30 : Nat) ≤ 60 ∧
      (sleepDuration 3500 ⟨360, 900, 0, 1, 10, 30⟩).1 ≤
        chosenInterval 3500 ⟨360, 900, 0, 1, 10, 30⟩ :=
  ⟨by decide,
    c5_amended_le_chosen 3500 ⟨360, 900, 0, 1, 10, 30⟩ (by decide) (by decide)
      (by decide)⟩

/-- The `E_FSM_STAGE` enum declared inside `setup()`. -/
inductive FsmStage
  | sensorData
  | response
  | lwStatus
  | appStatus
  | done
deriving DecidableEq

/-- `CMD_GET_LW_STATUS` of growatt2lorawan_cmd.h. -/
def CMD_GET_LW_STATUS : Nat := 0x38

/-- Data the external transport and application layer produce during one
loop iteration (one `sendReceive` exchange): the uplink frame counter
read at the top of the iteration, the app-status interval reported by the
AppLayer, and the command id decoded from this exchange's downlink
(`decodeDownlink` result; 0 when no downlink with data was received). -/
structure WakeEnv where
  fCntUp : Nat
  appStatusUplinkInterval : Nat
  req : Nat
deriving DecidableEq

/-- The variables of `setup()` the do/while loop reads and writes:
the stage, the scheduler object, the two retained pending flags, the
`uplinkReq` value carried from the previous iteration's downlink, and
the current `fPort`. -/
structure WakeState where
  fsm : FsmStage
  sched : UplinkScheduler
  lwStatusUplinkPending : Bool
  appStatusUplinkPending : Bool
  uplinkReq : Nat
  fPort : Nat
deriving DecidableEq

/-- Observable facts of one iteration: whether the exchange was sent
confirmed, whether a LinkCheck MAC command was requested, and on which
port the uplink went out. -/
structure WakeObs where
  isConfirmed : Bool
  linkCheckReq : Bool
  fPort : Nat
deriving DecidableEq

/-- One iteration of the wake-cycle do/while loop of `setup()`
(growatt2lorawan-v2.ino, lines 651-840): read the frame counter, decide
confirmed uplink / LinkCheck (`fCntUp && fCntUp % 64 == 0`), set the
pending flags from the frame counter and the configured intervals,
dispatch on the stage (`SENSOR_DATA` pulls the next scheduler port,
`RESPONSE` reuses the previous `uplinkReq` as port, `LW_STATUS` uses
`CMD_GET_LW_STATUS` and clears its pending flag), perform exactly one
`sendReceive` exchange, store the command id decoded from its downlink
into `uplinkReq`, and finally select the next stage in the strict
priority order of the source.  `lwStatInterval` is
`prefs.lw_stat_interval`. -/
def wakeStep (lwStatInterval : Nat) (table : List Schedule) (s : WakeState)
    (env : WakeEnv) : WakeState × WakeObs :=
  let isConfirmed := env.fCntUp != 0 && env.fCntUp % 64 == 0
  let appPend :=
    if env.appStatusUplinkInterval != 0 &&
        env.fCntUp % env.appStatusUplinkInterval == 0 then true
    else s.appStatusUplinkPending
  let lwPend0 :=
    if lwStatInterval != 0 && env.fCntUp % lwStatInterval == 0 then true
    else s.lwStatusUplinkPending
  let dispatch : UplinkScheduler × Bool × Nat :=
    match s.fsm with
    | FsmStage.sensorData =>
        let pr := s.sched.getNextPort table
        (pr.2, lwPend0, pr.1)
    | FsmStage.response => (s.sched, lwPend0, s.uplinkReq)
    | FsmStage.lwStatus => (s.sched, false, CMD_GET_LW_STATUS)
    | FsmStage.appStatus => (s.sched, lwPend0, s.fPort)
    | FsmStage.done => (s.sched, lwPend0, s.fPort)
  let sched1 := dispatch.1
  let lwPend1 := dispatch.2.1
  let fPort1 := dispatch.2.2
  let req := env.req
  let fsm1 :=
    if req != 0 then FsmStage.response
    else if sched1.hasUplinks then FsmStage.sensorData
    else if lwPend1 then FsmStage.lwStatus
    else FsmStage.done
  ({ fsm := fsm1
     sched := sched1
     lwStatusUplinkPending := lwPend1
     appStatusUplinkPending := appPend
     uplinkReq := req
     fPort := fPort1 },
    { isConfirmed := isConfirmed, linkCheckReq := isConfirmed, fPort := fPort1 })

/-- The state at the top of the do/while loop (growatt2lorawan-v2.ino,
lines 632-649): stage `E_SENSORDATA`, `uplinkReq = 0`, `fPort = 1`, the
retained pending flags as restored from RTC RAM, and the scheduler just
initialized with `begin(bootCount)`. -/
def initWakeState (table : List Schedule) (bootCount : Nat)
    (lwPending appPending : Bool) : WakeState :=
  { fsm := FsmStage.sensorData
    sched := UplinkScheduler.mk0.begin table bootCount
    lwStatusUplinkPending := lwPending
    appStatusUplinkPending := appPending
    uplinkReq := 0
    fPort := 1 }

/-- Modelled from the spec: the transition rule of spec section 4.4, in
the spec's own words — command response first, then remaining scheduled
uplinks, then pending LoRaWAN status, then termination. -/
def specNextState (cmdNonzero hasUplinks lwPending : Bool) : FsmStage :=
  if cmdNonzero then FsmStage.response
  else if hasUplinks then FsmStage.sensorData
  else if lwPending then FsmStage.lwStatus
  else FsmStage.done

/-- Claim C2: the loop starts in `SENSOR_DATA`, and after the one
exchange of each iteration the next stage is chosen in strict priority
order from this exchange's decoded command id, the scheduler's
`hasUplinks()` after the iteration's dispatch, and the LoRaWAN-status
pending flag after the iteration's dispatch — exactly the rule of spec
section 4.4 (`specNextState`).  Each `wakeStep` application models
exactly one `sendReceive` radio exchange. -/
theorem c2_transition_priority :
    (∀ (table : List Schedule) (b : Nat) (lw ap : Bool),
        (initWakeState table b lw ap).fsm = FsmStage.sensorData) ∧
      (∀ (lwStatInterval : Nat) (table : List Schedule) (s : WakeState)
          (env : WakeEnv),
        ((wakeStep lwStatInterval table s env).1).fsm =
          specNextState (env.req != 0)
            ((wakeStep lwStatInterval table s env).1).sched.hasUplinks
            ((wakeStep lwStatInterval table s env).1).lwStatusUplinkPending) := by
  constructor
  · intro table b lw ap
    rfl
  · intro lwStatInterval table s env
    cases s.fsm <;> rfl

/-- Claim C8 counterexample: at uplink frame counter 0 — which is
divisible by 64 — the source (`if (fCntUp && (fCntUp % 64 == 0))`) sends
an unconfirmed uplink and requests no LinkCheck, contradicting the
claim's "including frame counter 0". -/
theorem c8_counterexample :
    (0 : Nat) % 64 = 0 ∧
      ((wakeStep 0 UplinkSchedule (initWakeState UplinkSchedule 2 false false)
            ⟨0, 0, 0⟩).2).isConfirmed = false ∧
      ((wakeStep 0 UplinkSchedule (initWakeState UplinkSchedule 2 false false)
            ⟨0, 0, 0⟩).2).linkCheckReq = false := by
  refine ⟨rfl, ?_, ?_⟩ <;> decide

/-- Claim C8 as amended: on every iteration, the uplink is confirmed and
a LinkCheck MAC command is requested exactly when the frame counter is
nonzero and divisible by 64; on all other frame-counter values — frame
counter 0 included — the uplink is unconfirmed and no LinkCheck is
requested. -/
theorem c8_amended_confirmed_every_64 (lwStatInterval : Nat)
    (table : List Schedule) (s : WakeState) (env : WakeEnv) :
    (((wakeStep lwStatInterval table s env).2).isConfirmed = true ↔
        env.fCntUp ≠ 0 ∧ env.fCntUp % 64 = 0) ∧
      ((wakeStep lwStatInterval table s env).2).linkCheckReq =
        ((wakeStep lwStatInterval table s env).2).isConfirmed := by
  constructor
  · cases s.fsm <;> simp [wakeStep]
  · cases s.fsm <;> rfl

/-- Iterating the wake-cycle loop: `stepsFrom n` is the state after `n`
iterations, each consuming the next exchange outcome of the stream
`envs`. -/
def stepsFrom (lwStatInterval : Nat) (table : List Schedule) :
    (Nat → WakeEnv) → WakeState → Nat → WakeState
  | _, s, 0 => s
  | envs, s, n + 1 =>
      stepsFrom lwStatInterval table (fun i => envs (i + 1))
        ((wakeStep lwStatInterval table s (envs 0)).1) n

/-- Due entries the scheduler has not dispensed yet (the table rows past
the cursor that are due in the stored cycle). -/
def remainingDue (table : List Schedule) (sc : UplinkScheduler) : Nat :=
  countDue sc.cycle (table.drop sc.index)

theorem countDue_le_length (c : Nat) (l : List Schedule) :
    countDue c l ≤ l.length :=
  List.length_filter_le _ _

theorem remainingDue_le (table : List Schedule) (sc : UplinkScheduler)
    (h : table.length ≤ 255) : remainingDue table sc ≤ 255 := by
  have h1 : remainingDue table sc ≤ (table.drop sc.index).length :=
    countDue_le_length _ _
  have h2 : (table.drop sc.index).length ≤ table.length := by
    rw [List.length_drop]; omega
  omega

theorem getNextPort_of_none (sc : UplinkScheduler) (table : List Schedule)
    (h : remainingDue table sc = 0) : sc.getNextPort table = (0, sc) := by
  have hemit : emit sc.cycle (table.drop sc.index) = [] := by
    have := emit_length sc.cycle (table.drop sc.index)
    rw [remainingDue] at h
    rw [h] at this
    exact List.length_eq_zero.mp this
  have hf : findDue sc.cycle (table.drop sc.index) = none :=
    (findDue_none_iff _ _).mpr hemit
  simp [UplinkScheduler.getNextPort, hf]

theorem getNextPort_of_pos (sc : UplinkScheduler) (table : List Schedule)
    (h : 0 < remainingDue table sc) :
    ∃ (p idx2 : Nat),
      sc.getNextPort table = (p, ⟨(sc.uplinks + 255) % 256, idx2, sc.cycle⟩) ∧
        countDue sc.cycle (table.drop idx2) + 1 = remainingDue table sc := by
  cases hf : findDue sc.cycle (table.drop sc.index) with
  | none =>
      exfalso
      have hemit := (findDue_none_iff _ _).mp hf
      have hlen := emit_length sc.cycle (table.drop sc.index)
      rw [hemit] at hlen
      simp only [List.length_nil] at hlen
      simp only [remainingDue] at h
      omega
  | some pr =>
      obtain ⟨k, e⟩ := pr
      refine ⟨e.port % 256, sc.index + (k + 1), ?_, ?_⟩
      · simp [UplinkScheduler.getNextPort, hf]
      · have hdrop : (table.drop sc.index).drop (k + 1) =
            table.drop (sc.index + (k + 1)) := List.drop_drop _ _ _
        obtain ⟨_, hrec⟩ := findDue_some_spec sc.cycle (table.drop sc.index) k e hf
        have h1 := emit_length sc.cycle (table.drop sc.index)
        rw [hrec] at h1
        simp only [List.length_cons] at h1
        rw [hdrop] at h1
        have h2 := emit_length sc.cycle (table.drop (sc.index + (k + 1)))
        simp only [remainingDue]
        omega

theorem wakeStep_sensor_char (lwStatInterval : Nat) (table : List Schedule)
    (sc : UplinkScheduler) (lw ap : Bool) (rq fp : Nat) (env : WakeEnv) :
    (wakeStep lwStatInterval table ⟨FsmStage.sensorData, sc, lw, ap, rq, fp⟩
        env).1 =
      { fsm :=
          if env.req != 0 then FsmStage.response
          else if (sc.getNextPort table).2.hasUplinks then FsmStage.sensorData
          else if (if lwStatInterval != 0 && env.fCntUp % lwStatInterval == 0
              then true else lw) then FsmStage.lwStatus
          else FsmStage.done
        sched := (sc.getNextPort table).2
        lwStatusUplinkPending :=
          if lwStatInterval != 0 && env.fCntUp % lwStatInterval == 0 then true
          else lw
        appStatusUplinkPending :=
          if env.appStatusUplinkInterval != 0 &&
              env.fCntUp % env.appStatusUplinkInterval == 0 then true
          else ap
        uplinkReq := env.req
        fPort := (sc.getNextPort table).1 } := rfl

theorem wakeStep_lwStatus_char (lwStatInterval : Nat) (table : List Schedule)
    (sc : UplinkScheduler) (lw ap : Bool) (rq fp : Nat) (env : WakeEnv) :
    (wakeStep lwStatInterval table ⟨FsmStage.lwStatus, sc, lw, ap, rq, fp⟩
        env).1 =
      { fsm :=
          if env.req != 0 then FsmStage.response
          else if sc.hasUplinks then FsmStage.sensorData
          else FsmStage.done
        sched := sc
        lwStatusUplinkPending := false
        appStatusUplinkPending :=
          if env.appStatusUplinkInterval != 0 &&
              env.fCntUp % env.appStatusUplinkInterval == 0 then true
          else ap
        uplinkReq := env.req
        fPort := CMD_GET_LW_STATUS } := rfl

theorem wakeStep_response_char (lwStatInterval : Nat) (table : List Schedule)
    (sc : UplinkScheduler) (lw ap : Bool) (rq fp : Nat) (env : WakeEnv) :
    (wakeStep lwStatInterval table ⟨FsmStage.response, sc, lw, ap, rq, fp⟩
        env).1 =
      { fsm :=
          if env.req != 0 then FsmStage.response
          else if sc.hasUplinks then FsmStage.sensorData
          else if (if lwStatInterval != 0 && env.fCntUp % lwStatInterval == 0
              then true else lw) then FsmStage.lwStatus
          else FsmStage.done
        sched := sc
        lwStatusUplinkPending :=
          if lwStatInterval != 0 && env.fCntUp % lwStatInterval == 0 then true
          else lw
        appStatusUplinkPending :=
          if env.appStatusUplinkInterval != 0 &&
              env.fCntUp % env.appStatusUplinkInterval == 0 then true
          else ap
        uplinkReq := env.req
        fPort := rq } := rfl

theorem wakeStep_appStatus_char (lwStatInterval : Nat) (table : List Schedule)
    (sc : UplinkScheduler) (lw ap : Bool) (rq fp : Nat) (env : WakeEnv) :
    (wakeStep lwStatInterval table ⟨FsmStage.appStatus, sc, lw, ap, rq, fp⟩
        env).1 =
      { fsm :=
          if env.req != 0 then FsmStage.response
          else if sc.hasUplinks then FsmStage.sensorData
          else if (if lwStatInterval != 0 && env.fCntUp % lwStatInterval == 0
              then true else lw) then FsmStage.lwStatus
          else FsmStage.done
        sched := sc
        lwStatusUplinkPending :=
          if lwStatInterval != 0 && env.fCntUp % lwStatInterval == 0 then true
          else lw
        appStatusUplinkPending :=
          if env.appStatusUplinkInterval != 0 &&
              env.fCntUp % env.appStatusUplinkInterval == 0 then true
          else ap
        uplinkReq := env.req
        fPort := fp } := rfl

theorem wakeStep_done_char (lwStatInterval : Nat) (table : List Schedule)
    (sc : UplinkScheduler) (lw ap : Bool) (rq fp : Nat) (env : WakeEnv) :
    (wakeStep lwStatInterval table ⟨FsmStage.done, sc, lw, ap, rq, fp⟩
        env).1 =
      { fsm :=
          if env.req != 0 then FsmStage.response
          else if sc.hasUplinks then FsmStage.sensorData
          else if (if lwStatInterval != 0 && env.fCntUp % lwStatInterval == 0
              then true else lw) then FsmStage.lwStatus
          else FsmStage.done
        sched := sc
        lwStatusUplinkPending :=
          if lwStatInterval != 0 && env.fCntUp % lwStatInterval == 0 then true
          else lw
        appStatusUplinkPending :=
          if env.appStatusUplinkInterval != 0 &&
              env.fCntUp % env.appStatusUplinkInterval == 0 then true
          else ap
        uplinkReq := env.req
        fPort := fp } := rfl

theorem hasUplinks_false (sc : UplinkScheduler) (h : sc.uplinks = 0) :
    sc.hasUplinks = false := by
  simp [UplinkScheduler.hasUplinks, h]

theorem hasUplinks_true (sc : UplinkScheduler) (h : 0 < sc.uplinks) :
    sc.hasUplinks = true := by
  simp [UplinkScheduler.hasUplinks, h]

theorem lwStatus_step_done (lwStatInterval : Nat) (table : List Schedule)
    (sc : UplinkScheduler) (lw ap : Bool) (rq fp : Nat) (env : WakeEnv)
    (hreq : env.req = 0) (hu : sc.hasUplinks = false) :
    ((wakeStep lwStatInterval table ⟨FsmStage.lwStatus, sc, lw, ap, rq, fp⟩
        env).1).fsm = FsmStage.done := by
  rw [wakeStep_lwStatus_char]
  simp [hreq, hu]


theorem sensor_step_inner (lwStatInterval : Nat) (table : List Schedule)
    (sc sc2 : UplinkScheduler) (lw ap : Bool) (rq fp p : Nat) (env : WakeEnv)
    (hreq : env.req = 0) (hnp : sc.getNextPort table = (p, sc2)) :
    (wakeStep lwStatInterval table ⟨FsmStage.sensorData, sc, lw, ap, rq, fp⟩
        env).1 =
      ⟨if sc2.hasUplinks then FsmStage.sensorData
        else if (if lwStatInterval != 0 && env.fCntUp % lwStatInterval == 0
            then true else lw) then FsmStage.lwStatus
        else FsmStage.done,
        sc2,
        (if lwStatInterval != 0 && env.fCntUp % lwStatInterval == 0 then true
          else lw),
        (if env.appStatusUplinkInterval != 0 &&
            env.fCntUp % env.appStatusUplinkInterval == 0 then true else ap),
        0, p⟩ := by
  rw [wakeStep_sensor_char, hnp]
  simp [hreq]

theorem response_step_inner (lwStatInterval : Nat) (table : List Schedule)
    (sc : UplinkScheduler) (lw ap : Bool) (rq fp : Nat) (env : WakeEnv)
    (hreq : env.req = 0) :
    (wakeStep lwStatInterval table ⟨FsmStage.response, sc, lw, ap, rq, fp⟩
        env).1 =
      ⟨if sc.hasUplinks then FsmStage.sensorData
        else if (if lwStatInterval != 0 && env.fCntUp % lwStatInterval == 0
            then true else lw) then FsmStage.lwStatus
        else FsmStage.done,
        sc,
        (if lwStatInterval != 0 && env.fCntUp % lwStatInterval == 0 then true
          else lw),
        (if env.appStatusUplinkInterval != 0 &&
            env.fCntUp % env.appStatusUplinkInterval == 0 then true else ap),
        0, rq⟩ := by
  rw [wakeStep_response_char]
  simp [hreq]

theorem appStatus_step_inner (lwStatInterval : Nat) (table : List Schedule)
    (sc : UplinkScheduler) (lw ap : Bool) (rq fp : Nat) (env : WakeEnv)
    (hreq : env.req = 0) :
    (wakeStep lwStatInterval table ⟨FsmStage.appStatus, sc, lw, ap, rq, fp⟩
        env).1 =
      ⟨if sc.hasUplinks then FsmStage.sensorData
        else if (if lwStatInterval != 0 && env.fCntUp % lwStatInterval == 0
            then true else lw) then FsmStage.lwStatus
        else FsmStage.done,
        sc,
        (if lwStatInterval != 0 && env.fCntUp % lwStatInterval == 0 then true
          else lw),
        (if env.appStatusUplinkInterval != 0 &&
            env.fCntUp % env.appStatusUplinkInterval == 0 then true else ap),
        0, fp⟩ := by
  rw [wakeStep_appStatus_char]
  simp [hreq]

theorem lwStatus_step_inner (lwStatInterval : Nat) (table : List Schedule)
    (sc : UplinkScheduler) (lw ap : Bool) (rq fp : Nat) (env : WakeEnv)
    (hreq : env.req = 0) :
    (wakeStep lwStatInterval table ⟨FsmStage.lwStatus, sc, lw, ap, rq, fp⟩
        env).1 =
      ⟨if sc.hasUplinks then FsmStage.sensorData else FsmStage.done,
        sc, false,
        (if env.appStatusUplinkInterval != 0 &&
            env.fCntUp % env.appStatusUplinkInterval == 0 then true else ap),
        0, CMD_GET_LW_STATUS⟩ := by
  rw [wakeStep_lwStatus_char]
  simp [hreq]

theorem sensor_exhausted_done (lwStatInterval : Nat) (table : List Schedule)
    (sc : UplinkScheduler) (lw ap : Bool) (rq fp : Nat) (envs : Nat → WakeEnv)
    (hreq : ∀ i, (envs i).req = 0) (hu : sc.uplinks = 0)
    (hrem : remainingDue table sc = 0) :
    ∃ n, n ≤ 2 ∧
      (stepsFrom lwStatInterval table envs
          ⟨FsmStage.sensorData, sc, lw, ap, rq, fp⟩ n).fsm = FsmStage.done := by
  have hnp := getNextPort_of_none sc table hrem
  have hup : sc.hasUplinks = false := hasUplinks_false sc hu
  have hinner := sensor_step_inner lwStatInterval table sc sc lw ap rq fp 0
    (envs 0) (hreq 0) hnp
  rw [hup] at hinner
  cases hlw1 : (if lwStatInterval != 0 &&
      (envs 0).fCntUp % lwStatInterval == 0 then true else lw) with
  | false =>
      rw [hlw1] at hinner
      refine ⟨1, by omega, ?_⟩
      have hst : stepsFrom lwStatInterval table envs
          ⟨FsmStage.sensorData, sc, lw, ap, rq, fp⟩ 1 =
          (wakeStep lwStatInterval table
            ⟨FsmStage.sensorData, sc, lw, ap, rq, fp⟩ (envs 0)).1 := rfl
      rw [hst, hinner]
      rfl
  | true =>
      rw [hlw1] at hinner
      refine ⟨2, by omega, ?_⟩
      have hst : stepsFrom lwStatInterval table envs
          ⟨FsmStage.sensorData, sc, lw, ap, rq, fp⟩ 2 =
          (wakeStep lwStatInterval table
            ((wakeStep lwStatInterval table
                ⟨FsmStage.sensorData, sc, lw, ap, rq, fp⟩ (envs 0)).1)
            (envs 1)).1 := rfl
      rw [hst, hinner]
      exact lwStatus_step_done lwStatInterval table sc true _ 0 0 (envs 1)
        (hreq 1) hup

theorem sensor_reaches_done (lwStatInterval : Nat) (table : List Schedule)
    (hlen : table.length ≤ 255) :
    ∀ (r : Nat) (sc : UplinkScheduler) (lw ap : Bool) (rq fp : Nat)
      (envs : Nat → WakeEnv),
      (∀ i, (envs i).req = 0) → sc.uplinks = remainingDue table sc →
      remainingDue table sc = r →
      ∃ n, n ≤ max (r + 1) 2 ∧
        (stepsFrom lwStatInterval table envs
            ⟨FsmStage.sensorData, sc, lw, ap, rq, fp⟩ n).fsm =
          FsmStage.done := by
  intro r
  induction r with
  | zero =>
      intro sc lw ap rq fp envs hreq hinv hr
      obtain ⟨n, hn, hd⟩ := sensor_exhausted_done lwStatInterval table sc lw ap
        rq fp envs hreq (by omega) hr
      exact ⟨n, le_trans hn (le_max_right _ _), hd⟩
  | succ r ih =>
      intro sc lw ap rq fp envs hreq hinv hr
      have hpos : 0 < remainingDue table sc := by omega
      obtain ⟨p, idx2, hnp, hcnt⟩ := getNextPort_of_pos sc table hpos
      have h255 : remainingDue table sc ≤ 255 := remainingDue_le table sc hlen
      have hu2 : (sc.uplinks + 255) % 256 = r := by omega
      have hr' : countDue sc.cycle (table.drop sc.index) = r + 1 := by
        simpa [remainingDue] using hr
      have hrem2 : remainingDue table
          (⟨(sc.uplinks + 255) % 256, idx2, sc.cycle⟩ : UplinkScheduler) = r := by
        show countDue sc.cycle (table.drop idx2) = r
        simp only [remainingDue] at hcnt
        omega
      have hinner := sensor_step_inner lwStatInterval table sc
        ⟨(sc.uplinks + 255) % 256, idx2, sc.cycle⟩ lw ap rq fp p (envs 0)
        (hreq 0) hnp
      rcases Nat.eq_zero_or_pos r with hrz | hrpos
      · subst hrz
        have hup2 : (⟨(sc.uplinks + 255) % 256, idx2, sc.cycle⟩ :
            UplinkScheduler).hasUplinks = false := hasUplinks_false _ hu2
        rw [hup2] at hinner
        cases hlw1 : (if lwStatInterval != 0 &&
            (envs 0).fCntUp % lwStatInterval == 0 then true else lw) with
        | false =>
            rw [hlw1] at hinner
            refine ⟨1, le_trans (by omega) (le_max_right _ _), ?_⟩
            have hst : stepsFrom lwStatInterval table envs
                ⟨FsmStage.sensorData, sc, lw, ap, rq, fp⟩ 1 =
                (wakeStep lwStatInterval table
                  ⟨FsmStage.sensorData, sc, lw, ap, rq, fp⟩ (envs 0)).1 := rfl
            rw [hst, hinner]
            rfl
        | true =>
            rw [hlw1] at hinner
            refine ⟨2, le_trans (by omega) (le_max_right _ _), ?_⟩
            have hst : stepsFrom lwStatInterval table envs
                ⟨FsmStage.sensorData, sc, lw, ap, rq, fp⟩ 2 =
                (wakeStep lwStatInterval table
                  ((wakeStep lwStatInterval table
                      ⟨FsmStage.sensorData, sc, lw, ap, rq, fp⟩ (envs 0)).1)
                  (envs 1)).1 := rfl
            rw [hst, hinner]
            exact lwStatus_step_done lwStatInterval table _ true _ 0 p (envs 1)
              (hreq 1) hup2
      · have hup2 : (⟨(sc.uplinks + 255) % 256, idx2, sc.cycle⟩ :
            UplinkScheduler).hasUplinks = true := by
          apply hasUplinks_true
          show 0 < (sc.uplinks + 255) % 256
          omega
        rw [hup2] at hinner
        have hinner2 : (wakeStep lwStatInterval table
            ⟨FsmStage.sensorData, sc, lw, ap, rq, fp⟩ (envs 0)).1 =
            ⟨FsmStage.sensorData,
              ⟨(sc.uplinks + 255) % 256, idx2, sc.cycle⟩,
              (if lwStatInterval != 0 &&
                  (envs 0).fCntUp % lwStatInterval == 0 then true else lw),
              (if (envs 0).appStatusUplinkInterval != 0 &&
                  (envs 0).fCntUp % (envs 0).appStatusUplinkInterval == 0
                then true else ap),
              0, p⟩ := by
          rw [hinner]
          rfl
        have hinv2 : (⟨(sc.uplinks + 255) % 256, idx2, sc.cycle⟩ :
            UplinkScheduler).uplinks = remainingDue table
            ⟨(sc.uplinks + 255) % 256, idx2, sc.cycle⟩ := by
          rw [hrem2]
          exact hu2
        obtain ⟨m, hm, hdone⟩ := ih
          ⟨(sc.uplinks + 255) % 256, idx2, sc.cycle⟩
          (if lwStatInterval != 0 &&
            (envs 0).fCntUp % lwStatInterval == 0 then true else lw)
          (if (envs 0).appStatusUplinkInterval != 0 &&
            (envs 0).fCntUp % (envs 0).appStatusUplinkInterval == 0
            then true else ap)
          0 p (fun i => envs (i + 1)) (fun i => hreq (i + 1)) hinv2 hrem2
        have hmax1 : max (r + 1) 2 = r + 1 := max_eq_left (by omega)
        rw [hmax1] at hm
        refine ⟨m + 1, le_trans (by omega) (le_max_left _ _), ?_⟩
        have hst : stepsFrom lwStatInterval table envs
            ⟨FsmStage.sensorData, sc, lw, ap, rq, fp⟩ (m + 1) =
            stepsFrom lwStatInterval table (fun i => envs (i + 1))
              ((wakeStep lwStatInterval table
                ⟨FsmStage.sensorData, sc, lw, ap, rq, fp⟩ (envs 0)).1) m := rfl
        rw [hst, hinner2]
        exact hdone

/-- Claim C3 counterexample: from the initial state of a wake episode with
boot count 2 (one scheduled port, so the claimed bound is 1 + 2 = 3), an
environment in which every exchange's downlink decodes to command id 1
keeps the machine in `RESPONSE` forever: after 0, 1, 2 and 3 iterations
the stage is still not `DONE`, refuting the claimed bound (and any fixed
bound). -/
theorem c3_counterexample :
    countDue 2 UplinkSchedule + 2 = 3 ∧
      (stepsFrom 0 UplinkSchedule (fun _ => ⟨1, 0, 1⟩)
          (initWakeState UplinkSchedule 2 false false) 0).fsm ≠
        FsmStage.done ∧
      (stepsFrom 0 UplinkSchedule (fun _ => ⟨1, 0, 1⟩)
          (initWakeState UplinkSchedule 2 false false) 1).fsm ≠
        FsmStage.done ∧
      (stepsFrom 0 UplinkSchedule (fun _ => ⟨1, 0, 1⟩)
          (initWakeState UplinkSchedule 2 false false) 2).fsm ≠
        FsmStage.done ∧
      (stepsFrom 0 UplinkSchedule (fun _ => ⟨1, 0, 1⟩)
          (initWakeState UplinkSchedule 2 false false) 3).fsm ≠
        FsmStage.done := by
  decide

/-- Claim C3 as amended: in every run in which no downlink decodes to a
non-zero command id, the wake-cycle state machine reaches `DONE` from any
state whose scheduler counter agrees with its remaining due entries (the
invariant every reachable state of an episode satisfies; the second
conjunct shows the episode-initial state satisfies it) within
(remaining scheduled ports) + 2 iterations.  With command downlinks the
bound fails — the counterexample keeps the machine in `RESPONSE`
indefinitely — so the claim holds only for command-free runs. -/
theorem c3_amended_bounded_termination :
    (∀ (lwStatInterval : Nat) (table : List Schedule), table.length ≤ 255 →
      ∀ (s : WakeState) (envs : Nat → WakeEnv), (∀ i, (envs i).req = 0) →
      s.sched.uplinks = remainingDue table s.sched →
      ∃ n, n ≤ remainingDue table s.sched + 2 ∧
        (stepsFrom lwStatInterval table envs s n).fsm = FsmStage.done) ∧
      (∀ (table : List Schedule) (b : Nat) (lw ap : Bool),
        table.length ≤ 255 →
        (initWakeState table b lw ap).sched.uplinks =
          remainingDue table (initWakeState table b lw ap).sched) := by
  constructor
  · intro lwStatInterval table hlen s envs hreq hinv
    obtain ⟨f, sc, lw, ap, rq, fp⟩ := s
    dsimp only at hinv ⊢
    cases f with
    | sensorData =>
        obtain ⟨n, hn, hd⟩ := sensor_reaches_done lwStatInterval table hlen
          (remainingDue table sc) sc lw ap rq fp envs hreq hinv rfl
        have hb : max (remainingDue table sc + 1) 2 ≤
            remainingDue table sc + 2 := max_le (by omega) (by omega)
        exact ⟨n, le_trans hn hb, hd⟩
    | done => exact ⟨0, by omega, rfl⟩
    | response =>
        have hinner := response_step_inner lwStatInterval table sc lw ap rq fp
          (envs 0) (hreq 0)
        rcases Nat.eq_zero_or_pos (remainingDue table sc) with hrz | hrpos
        · have hup : sc.hasUplinks = false := hasUplinks_false sc (by omega)
          rw [hup] at hinner
          cases hlw1 : (if lwStatInterval != 0 &&
              (envs 0).fCntUp % lwStatInterval == 0 then true else lw) with
          | false =>
              rw [hlw1] at hinner
              refine ⟨1, by omega, ?_⟩
              have hst : stepsFrom lwStatInterval table envs
                  ⟨FsmStage.response, sc, lw, ap, rq, fp⟩ 1 =
                  (wakeStep lwStatInterval table
                    ⟨FsmStage.response, sc, lw, ap, rq, fp⟩ (envs 0)).1 := rfl
              rw [hst, hinner]
              rfl
          | true =>
              rw [hlw1] at hinner
              refine ⟨2, by omega, ?_⟩
              have hst : stepsFrom lwStatInterval table envs
                  ⟨FsmStage.response, sc, lw, ap, rq, fp⟩ 2 =
                  (wakeStep lwStatInterval table
                    ((wakeStep lwStatInterval table
                        ⟨FsmStage.response, sc, lw, ap, rq, fp⟩ (envs 0)).1)
                    (envs 1)).1 := rfl
              rw [hst, hinner]
              exact lwStatus_step_done lwStatInterval table sc true _ 0 rq
                (envs 1) (hreq 1) hup
        · have hup : sc.hasUplinks = true := hasUplinks_true sc (by omega)
          rw [hup] at hinner
          have hinner2 : (wakeStep lwStatInterval table
              ⟨FsmStage.response, sc, lw, ap, rq, fp⟩ (envs 0)).1 =
              ⟨FsmStage.sensorData, sc,
                (if lwStatInterval != 0 &&
                    (envs 0).fCntUp % lwStatInterval == 0 then true else lw),
                (if (envs 0).appStatusUplinkInterval != 0 &&
                    (envs 0).fCntUp % (envs 0).appStatusUplinkInterval == 0
                  then true else ap),
                0, rq⟩ := by
            rw [hinner]
            rfl
          obtain ⟨m, hm, hd⟩ := sensor_reaches_done lwStatInterval table hlen
            (remainingDue table sc) sc
            (if lwStatInterval != 0 &&
              (envs 0).fCntUp % lwStatInterval == 0 then true else lw)
            (if (envs 0).appStatusUplinkInterval != 0 &&
              (envs 0).fCntUp % (envs 0).appStatusUplinkInterval == 0
              then true else ap)
            0 rq (fun i => envs (i + 1)) (fun i => hreq (i + 1)) hinv rfl
          have hmax : max (remainingDue table sc + 1) 2 =
              remainingDue table sc + 1 := max_eq_left (by omega)
          rw [hmax] at hm
          refine ⟨m + 1, by omega, ?_⟩
          have hst : stepsFrom lwStatInterval table envs
              ⟨FsmStage.response, sc, lw, ap, rq, fp⟩ (m + 1) =
              stepsFrom lwStatInterval table (fun i => envs (i + 1))
                ((wakeStep lwStatInterval table
                  ⟨FsmStage.response, sc, lw, ap, rq, fp⟩ (envs 0)).1) m := rfl
          rw [hst, hinner2]
          exact hd
    | appStatus =>
        have hinner := appStatus_step_inner lwStatInterval table sc lw ap rq fp
          (envs 0) (hreq 0)
        rcases Nat.eq_zero_or_pos (remainingDue table sc) with hrz | hrpos
        · have hup : sc.hasUplinks = false := hasUplinks_false sc (by omega)
          rw [hup] at hinner
          cases hlw1 : (if lwStatInterval != 0 &&
              (envs 0).fCntUp % lwStatInterval == 0 then true else lw) with
          | false =>
              rw [hlw1] at hinner
              refine ⟨1, by omega, ?_⟩
              have hst : stepsFrom lwStatInterval table envs
                  ⟨FsmStage.appStatus, sc, lw, ap, rq, fp⟩ 1 =
                  (wakeStep lwStatInterval table
                    ⟨FsmStage.appStatus, sc, lw, ap, rq, fp⟩ (envs 0)).1 := rfl
              rw [hst, hinner]
              rfl
          | true =>
              rw [hlw1] at hinner
              refine ⟨2, by omega, ?_⟩
              have hst : stepsFrom lwStatInterval table envs
                  ⟨FsmStage.appStatus, sc, lw, ap, rq, fp⟩ 2 =
                  (wakeStep lwStatInterval table
                    ((wakeStep lwStatInterval table
                        ⟨FsmStage.appStatus, sc, lw, ap, rq, fp⟩ (envs 0)).1)
                    (envs 1)).1 := rfl
              rw [hst, hinner]
              exact lwStatus_step_done lwStatInterval table sc true _ 0 fp
                (envs 1) (hreq 1) hup
        · have hup : sc.hasUplinks = true := hasUplinks_true sc (by omega)
          rw [hup] at hinner
          have hinner2 : (wakeStep lwStatInterval table
              ⟨FsmStage.appStatus, sc, lw, ap, rq, fp⟩ (envs 0)).1 =
              ⟨FsmStage.sensorData, sc,
                (if lwStatInterval != 0 &&
                    (envs 0).fCntUp % lwStatInterval == 0 then true else lw),
                (if (envs 0).appStatusUplinkInterval != 0 &&
                    (envs 0).fCntUp % (envs 0).appStatusUplinkInterval == 0
                  then true else ap),
                0, fp⟩ := by
            rw [hinner]
            rfl
          obtain ⟨m, hm, hd⟩ := sensor_reaches_done lwStatInterval table hlen
            (remainingDue table sc) sc
            (if lwStatInterval != 0 &&
              (envs 0).fCntUp % lwStatInterval == 0 then true else lw)
            (if (envs 0).appStatusUplinkInterval != 0 &&
              (envs 0).fCntUp % (envs 0).appStatusUplinkInterval == 0
              then true else ap)
            0 fp (fun i => envs (i + 1)) (fun i => hreq (i + 1)) hinv rfl
          have hmax : max (remainingDue table sc + 1) 2 =
              remainingDue table sc + 1 := max_eq_left (by omega)
          rw [hmax] at hm
          refine ⟨m + 1, by omega, ?_⟩
          have hst : stepsFrom lwStatInterval table envs
              ⟨FsmStage.appStatus, sc, lw, ap, rq, fp⟩ (m + 1) =
              stepsFrom lwStatInterval table (fun i => envs (i + 1))
                ((wakeStep lwStatInterval table
                  ⟨FsmStage.appStatus, sc, lw, ap, rq, fp⟩ (envs 0)).1) m := rfl
          rw [hst, hinner2]
          exact hd
    | lwStatus =>
        have hinner := lwStatus_step_inner lwStatInterval table sc lw ap rq fp
          (envs 0) (hreq 0)
        rcases Nat.eq_zero_or_pos (remainingDue table sc) with hrz | hrpos
        · have hup : sc.hasUplinks = false := hasUplinks_false sc (by omega)
          rw [hup] at hinner
          refine ⟨1, by omega, ?_⟩
          have hst : stepsFrom lwStatInterval table envs
              ⟨FsmStage.lwStatus, sc, lw, ap, rq, fp⟩ 1 =
              (wakeStep lwStatInterval table
                ⟨FsmStage.lwStatus, sc, lw, ap, rq, fp⟩ (envs 0)).1 := rfl
          rw [hst, hinner]
          rfl
        · have hup : sc.hasUplinks = true := hasUplinks_true sc (by omega)
          rw [hup] at hinner
          have hinner2 : (wakeStep lwStatInterval table
              ⟨FsmStage.lwStatus, sc, lw, ap, rq, fp⟩ (envs 0)).1 =
              ⟨FsmStage.sensorData, sc, false,
                (if (envs 0).appStatusUplinkInterval != 0 &&
                    (envs 0).fCntUp % (envs 0).appStatusUplinkInterval == 0
                  then true else ap),
                0, CMD_GET_LW_STATUS⟩ := by
            rw [hinner]
            rfl
          obtain ⟨m, hm, hd⟩ := sensor_reaches_done lwStatInterval table hlen
            (remainingDue table sc) sc false
            (if (envs 0).appStatusUplinkInterval != 0 &&
              (envs 0).fCntUp % (envs 0).appStatusUplinkInterval == 0
              then true else ap)
            0 CMD_GET_LW_STATUS (fun i => envs (i + 1))
            (fun i => hreq (i + 1)) hinv rfl
          have hmax : max (remainingDue table sc + 1) 2 =
              remainingDue table sc + 1 := max_eq_left (by omega)
          rw [hmax] at hm
          refine ⟨m + 1, by omega, ?_⟩
          have hst : stepsFrom lwStatInterval table envs
              ⟨FsmStage.lwStatus, sc, lw, ap, rq, fp⟩ (m + 1) =
              stepsFrom lwStatInterval table (fun i => envs (i + 1))
                ((wakeStep lwStatInterval table
                  ⟨FsmStage.lwStatus, sc, lw, ap, rq, fp⟩ (envs 0)).1) m := rfl
          rw [hst, hinner2]
          exact hd
  · intro table b lw ap hlen
    have hc : countDue (b % 256) table ≤ 255 :=
      le_trans (countDue_le_length _ _) hlen
    have h1 : (UplinkScheduler.mk0.begin table b).uplinks =
        countDue (b % 256) table := by
      show beginCount (b % 256) 0 table = countDue (b % 256) table
      have := beginCount_no_wrap table (b % 256) 0 (by omega)
      omega
    have h2 : remainingDue table (UplinkScheduler.mk0.begin table b) =
        countDue (b % 256) table := by
      show countDue (b % 256) (table.drop 0) = countDue (b % 256) table
      rw [List.drop_zero]
    show (UplinkScheduler.mk0.begin table b).uplinks =
      remainingDue table (UplinkScheduler.mk0.begin table b)
    rw [h1, h2]

theorem c3_amended_witness :
    ∃ n, n ≤ remainingDue UplinkSchedule
        (initWakeState UplinkSchedule 3 false false).sched + 2 ∧
      (stepsFrom 0 UplinkSchedule (fun _ => ⟨5, 0, 0⟩)
          (initWakeState UplinkSchedule 3 false false) n).fsm =
        FsmStage.done :=
  c3_amended_bounded_termination.1 0 UplinkSchedule (by decide)
    (initWakeState UplinkSchedule 3 false false) (fun _ => ⟨5, 0, 0⟩)
    (fun _ => rfl) (by decide)

/-- One `sendReceive` exchange of a wake episode as seen by the session
logic: the RadioLib return value (`negative` = error, `0` = no downlink,
`1`/`2` = downlink in Rx1/Rx2) and the content of the transport's
session buffer (`node.getBufferSession()`) after the exchange.  The
transport is the external black box of spec sections 1 and 6; its buffer
content is environment data. -/
structure ExchangeOutcome where
  state : Int
  sessionAfter : List Nat
deriving DecidableEq

/-- The transport's session-buffer content at the end of the loop: the
buffer after the last exchange (or the restored content when no exchange
happened). -/
def finalNodeBuf (buf0 : List Nat) : List ExchangeOutcome → List Nat
  | [] => buf0
  | o :: rest => finalNodeBuf o.sessionAfter rest

/-- The retained `LWsession` buffer after one wake episode
(growatt2lorawan-v2.ino lines 842-844): after the do/while loop exits,
`memcpy(LWsession, node.getBufferSession(), ...)` runs unconditionally —
there is no check of any exchange's return state — so the persisted
bytes become the transport's final buffer content no matter whether any
exchange succeeded.  `buf0` is the node's buffer at loop start (the
content restored from `LWsession` by `lwActivate` before any network
activity). -/
def episodePersist (outcomes : List ExchangeOutcome) (buf0 : List Nat) :
    List Nat :=
  finalNodeBuf buf0 outcomes

/-- The ordered session-related actions of one wake episode in `setup()`:
`lwActivate` restores the retained session into the transport
(`node.setBufferSession(LWsession)`, before `activateOTAA` and before any
exchange), then the loop's exchanges happen, then the single
unconditional save. -/
inductive EpisodeEv
  | restoreSession
  | exchange (state : Int)
  | saveSession
deriving DecidableEq

/-- The event trace of one wake episode, from the control flow of
`setup()`/`lwActivate`. -/
def episodeTrace (outcomes : List ExchangeOutcome) : List EpisodeEv :=
  EpisodeEv.restoreSession ::
    (outcomes.map (fun o => EpisodeEv.exchange o.state) ++
      [EpisodeEv.saveSession])

/-- Claim C9 counterexample: a wake episode whose single exchange fails
(`sendReceive` returns a negative state) and after which the transport's
session buffer differs from the episode-start content still overwrites
the retained `SessionBlob`: the persisted bytes are not left
byte-identical, because the save after the loop is unconditional. -/
theorem c9_counterexample :
    (ExchangeOutcome.state ⟨-1, [1]⟩ < 0) ∧
      episodePersist [⟨-1, [1]⟩] [0] ≠ [0] := by
  exact ⟨by decide, by decide⟩

/-- Claim C9 as amended: the session bytes are written back to the
retained buffer exactly once per wake episode, after the loop exits, and
unconditionally: the persisted content is the transport's buffer after
the last exchange (the restored content when there was none), with no
dependence on any exchange's success state (first conjunct).  The
restore of the retained session is the first session action of the
episode, before every exchange, and the save is the last (second
conjunct). -/
theorem c9_amended_unconditional_save :
    (∀ (buf0 : List Nat) (outcomes : List ExchangeOutcome),
      episodePersist outcomes buf0 =
        (outcomes.map (fun o => o.sessionAfter)).getLastD buf0) ∧
      (∀ outcomes : List ExchangeOutcome,
        (episodeTrace outcomes).head? = some EpisodeEv.restoreSession ∧
          (episodeTrace outcomes).getLast? = some EpisodeEv.saveSession) := by
  constructor
  · intro buf0 outcomes
    induction outcomes generalizing buf0 with
    | nil => rfl
    | cons o rest ih =>
        have h1 : episodePersist (o :: rest) buf0 =
            episodePersist rest o.sessionAfter := rfl
        rw [h1, ih o.sessionAfter, List.map_cons, List.getLastD_cons]
  · intro outcomes
    refine ⟨rfl, ?_⟩
    show (EpisodeEv.restoreSession ::
        (outcomes.map (fun o => EpisodeEv.exchange o.state) ++
          [EpisodeEv.saveSession])).getLast? = some EpisodeEv.saveSession
    rw [← List.cons_append, List.getLast?_concat]
